import Mathlib

/-!
Verification development for the `vsupersplat` asset converter
(`gs/scripts/converter.py`).  The numeric arrays of the Python code are
modelled over `ℚ` (exact arithmetic standing in for floating point);
square roots, which leave `ℚ`, are taken in `ℝ` at the statement level.
NumPy arrays become lists (axis by axis), and fallible operations return
`Except`.
-/

namespace VSupersplat

/-- A 3-vector, as a triple of coordinates `(x, y, z)`. -/
abbrev Vec3 := ℚ × ℚ × ℚ

/-- A quaternion in scipy order `(x, y, z, w)`. -/
abbrev Quat4 := ℚ × ℚ × ℚ × ℚ

/-! ### `cv_to_gl` — coordinate conversion of 3-vectors

`cv_to_gl(coords)` copies the input and negates the Y and Z components.
The code branches on `coords.ndim` (1, 2 or 3); each branch negates the
same components of every contained 3-vector, so the three ranks are three
definitions. -/

/-- `cv_to_gl`, rank-1 branch: a single 3D point, `(x, y, z) ↦ (x, -y, -z)`. -/
def cv_to_gl₁ (p : Vec3) : Vec3 :=
  (p.1, -p.2.1, -p.2.2)

/-- `cv_to_gl`, rank-2 branch: an `(N, 3)` array of points. -/
def cv_to_gl₂ (ps : List Vec3) : List Vec3 :=
  ps.map cv_to_gl₁

/-- `cv_to_gl`, rank-3 branch: an `(N, M, 3)` array of points. -/
def cv_to_gl₃ (pss : List (List Vec3)) : List (List Vec3) :=
  pss.map cv_to_gl₂

/-! ### `cv_to_gl_quat` — coordinate conversion of quaternions

Negates the Y and Z vector-part components of each `(x, y, z, w)`
quaternion; the scalar part `w` is untouched. -/

/-- `cv_to_gl_quat`, rank-1 branch: one quaternion, `(x, y, z, w) ↦ (x, -y, -z, w)`. -/
def cv_to_gl_quat₁ (q : Quat4) : Quat4 :=
  (q.1, -q.2.1, -q.2.2.1, q.2.2.2)

/-- `cv_to_gl_quat`, rank-2 branch: an `(N, 4)` array of quaternions. -/
def cv_to_gl_quat₂ (qs : List Quat4) : List Quat4 :=
  qs.map cv_to_gl_quat₁

/-- `cv_to_gl_quat`, rank-3 branch: an `(N, M, 4)` array of quaternions. -/
def cv_to_gl_quat₃ (qss : List (List Quat4)) : List (List Quat4) :=
  qss.map cv_to_gl_quat₂

lemma cv_to_gl₁_involutive (p : Vec3) : cv_to_gl₁ (cv_to_gl₁ p) = p := by
  simp [cv_to_gl₁]

lemma cv_to_gl_quat₁_involutive (q : Quat4) :
    cv_to_gl_quat₁ (cv_to_gl_quat₁ q) = q := by
  simp [cv_to_gl_quat₁]

/-- C2: the coordinate conversion is an involution at every rank (1, 2, 3),
for 3-vectors and for quaternions, and a single application negates exactly
the Y and Z components of a 3-vector and the Y and Z vector-part components
of a quaternion, leaving W untouched. -/
theorem cv_to_gl_involution_and_components :
    (∀ p : Vec3, cv_to_gl₁ (cv_to_gl₁ p) = p) ∧
    (∀ ps : List Vec3, cv_to_gl₂ (cv_to_gl₂ ps) = ps) ∧
    (∀ pss : List (List Vec3), cv_to_gl₃ (cv_to_gl₃ pss) = pss) ∧
    (∀ q : Quat4, cv_to_gl_quat₁ (cv_to_gl_quat₁ q) = q) ∧
    (∀ qs : List Quat4, cv_to_gl_quat₂ (cv_to_gl_quat₂ qs) = qs) ∧
    (∀ qss : List (List Quat4), cv_to_gl_quat₃ (cv_to_gl_quat₃ qss) = qss) ∧
    (∀ p : Vec3, cv_to_gl₁ p = (p.1, -p.2.1, -p.2.2)) ∧
    (∀ q : Quat4, cv_to_gl_quat₁ q = (q.1, -q.2.1, -q.2.2.1, q.2.2.2)) := by
  refine ⟨cv_to_gl₁_involutive, ?_, ?_, cv_to_gl_quat₁_involutive, ?_, ?_, ?_, ?_⟩
  · intro ps
    simp [cv_to_gl₂, Function.comp_def, cv_to_gl₁_involutive]
  · intro pss
    simp [cv_to_gl₃, cv_to_gl₂, Function.comp_def, cv_to_gl₁_involutive]
  · intro qs
    simp [cv_to_gl_quat₂, Function.comp_def, cv_to_gl_quat₁_involutive]
  · intro qss
    simp [cv_to_gl_quat₃, cv_to_gl_quat₂, Function.comp_def, cv_to_gl_quat₁_involutive]
  · intro p; rfl
  · intro q; rfl

/-! ### Covariance decomposition in `process_data` (lines 226–231)

`w, v = np.linalg.eigh(covs)` returns, for each symmetric input, real
eigenvalues `w` and an orthogonal eigenvector matrix `v` (so `det v = ±1`);
then `scales = np.sqrt(np.maximum(w, 1e-8))`, and every `v` with negative
determinant has its first column negated before the quaternion conversion. -/

/-- A 3×3 matrix over `ℚ` (exact stand-in for the float matrices). -/
abbrev Mat3 := Matrix (Fin 3) (Fin 3) ℚ

/-- The determinant fix of `process_data`:
`dets = np.linalg.det(v); v[dets < 0, :, 0] *= -1` — negate the first
column of the eigenvector matrix whenever its determinant is negative. -/
def fixOrientation (v : Mat3) : Mat3 :=
  if v.det < 0 then v.updateColumn 0 (fun i => -(v i 0)) else v

/-- The eigenvalue clamp of `scales = np.sqrt(np.maximum(w, 1e-8))`:
the argument passed to the square root. -/
def clampEig (w : ℚ) : ℚ :=
  max w (1 / 100000000)

lemma det_negate_first_column (v : Mat3) :
    (v.updateColumn 0 (fun i => -(v i 0))).det = -v.det := by
  have h : (fun i => -(v i 0)) = (-1 : ℚ) • (fun i => v i 0) := by
    funext i
    simp
  rw [h, Matrix.det_updateColumn_smul, Matrix.updateColumn_eq_self]
  ring

lemma det_fixOrientation (v : Mat3) (hv : v.det = 1 ∨ v.det = -1) :
    (fixOrientation v).det = 1 := by
  rcases hv with h | h
  · rw [fixOrientation, if_neg (by rw [h]; norm_num)]
    exact h
  · rw [fixOrientation, if_pos (by rw [h]; norm_num), det_negate_first_column, h]
    norm_num

lemma clampEig_pos (w : ℚ) : 0 < clampEig w :=
  lt_of_lt_of_le (by norm_num) (le_max_right w (1 / 100000000))

/-- C1: for an orthogonal eigenvector matrix `v` (as returned by `eigh`
on a symmetric PSD covariance, so `v * vᵀ = 1`), the orientation matrix
produced by the determinant fix has determinant exactly `+1`, obtained by
negating the first column exactly when `det v < 0`; and each scale
component `sqrt(max(w, 1e-8))` is positive — in particular finite (a real
number) and never zero. -/
theorem covariance_decomposition_orientation_and_scales
    (v : Mat3) (hv : v * v.transpose = 1) (w : ℚ) :
    (fixOrientation v).det = 1 ∧
    (v.det < 0 → fixOrientation v = v.updateColumn 0 (fun i => -(v i 0))) ∧
    (0 ≤ v.det → fixOrientation v = v) ∧
    0 < Real.sqrt (clampEig w) ∧ Real.sqrt (clampEig w) ≠ 0 := by
  have hdet : v.det = 1 ∨ v.det = -1 := by
    have h1 : v.det * v.det = 1 := by
      have := congrArg Matrix.det hv
      rwa [Matrix.det_mul, Matrix.det_transpose, Matrix.det_one] at this
    rcases mul_self_eq_one_iff.mp h1 with h | h
    · exact Or.inl h
    · exact Or.inr h
  have hsqrt : 0 < Real.sqrt (clampEig w) := by
    apply Real.sqrt_pos.mpr
    exact_mod_cast clampEig_pos w
  refine ⟨det_fixOrientation v hdet, ?_, ?_, hsqrt, ne_of_gt hsqrt⟩
  · intro h
    simp [fixOrientation, h]
  · intro h
    simp [fixOrientation, not_lt.mpr h]

/-- Witness for C1 at the identity eigenvector matrix and eigenvalue `0`. -/
theorem covariance_decomposition_orientation_and_scales_witness :
    (fixOrientation 1).det = 1 ∧ 0 < Real.sqrt (clampEig 0) := by
  have h := covariance_decomposition_orientation_and_scales 1 (by simp) 0
  exact ⟨h.1, h.2.2.2.1⟩

/-! ### Skinning-weight reduction (lines 246–249)

`top_indices = np.argsort(weights, axis=1)[:, -4:]` — per record, the
indices that sort the weights ascending, keeping the last four; then
`top_weights = np.take_along_axis(weights, top_indices, axis=1)` and
`top_weights / (top_weights.sum() + 1e-8)`.  One record (one row of the
`N×B` matrix) is a `List ℚ`; `argsort` is modelled as a stable sort of the
index list by weight value (NumPy's quicksort is unstable on ties, but the
claims leave tie order unconstrained). -/

/-- `np.argsort(ws)`: the indices `0, …, B-1` sorted ascending by weight. -/
def argsortAsc (ws : List ℚ) : List ℕ :=
  List.insertionSort (fun i j => ws.getD i 0 ≤ ws.getD j 0) (List.range ws.length)

/-- `np.argsort(ws)[-4:]`: the last four entries of the ascending argsort. -/
def topIndices (ws : List ℚ) : List ℕ :=
  (argsortAsc ws).drop (ws.length - 4)

/-- `np.take_along_axis(ws, top_indices)`: the selected weight values. -/
def topWeights (ws : List ℚ) : List ℚ :=
  (topIndices ws).map (fun i => ws.getD i 0)

/-- `top_weights.sum(axis=1)` for one record. -/
def topWeightSum (ws : List ℚ) : ℚ :=
  (topWeights ws).sum

/-- `top_weights / (weight_sums + 1e-8)`: the renormalized reduced weights. -/
def reducedWeights (ws : List ℚ) : List ℚ :=
  (topWeights ws).map (fun x => x / (topWeightSum ws + 1 / 100000000))

lemma argsort_sorted (ws : List ℚ) :
    (argsortAsc ws).Pairwise (fun i j => ws.getD i 0 ≤ ws.getD j 0) := by
  haveI : IsTotal ℕ (fun i j => ws.getD i 0 ≤ ws.getD j 0) :=
    ⟨fun a b => le_total _ _⟩
  haveI : IsTrans ℕ (fun i j => ws.getD i 0 ≤ ws.getD j 0) :=
    ⟨fun _ _ _ hab hbc => le_trans hab hbc⟩
  exact List.sorted_insertionSort _ _

lemma argsort_perm (ws : List ℚ) :
    List.Perm (argsortAsc ws) (List.range ws.length) :=
  List.perm_insertionSort _ _

lemma topIndices_pairwise (ws : List ℚ) :
    (topIndices ws).Pairwise (fun i j => ws.getD i 0 ≤ ws.getD j 0) :=
  List.Pairwise.sublist (List.drop_sublist _ _) (argsort_sorted ws)

lemma topWeights_sorted (ws : List ℚ) : List.Sorted (· ≤ ·) (topWeights ws) :=
  List.Pairwise.map _ (fun _ _ h => h) (topIndices_pairwise ws)

lemma argsort_take_le_drop (ws : List ℚ) {i j : ℕ}
    (hi : i ∈ (argsortAsc ws).take (ws.length - 4))
    (hj : j ∈ topIndices ws) :
    ws.getD i 0 ≤ ws.getD j 0 := by
  have h := argsort_sorted ws
  rw [← List.take_append_drop (ws.length - 4) (argsortAsc ws)] at h
  exact (List.pairwise_append.mp h).2.2 i hi j hj

lemma not_selected_le (ws : List ℚ) {i : ℕ} (hi : i < ws.length)
    (hni : i ∉ topIndices ws) {j : ℕ} (hj : j ∈ topIndices ws) :
    ws.getD i 0 ≤ ws.getD j 0 := by
  have hmem : i ∈ argsortAsc ws :=
    (argsort_perm ws).mem_iff.mpr (List.mem_range.mpr hi)
  rw [← List.take_append_drop (ws.length - 4) (argsortAsc ws)] at hmem
  rcases List.mem_append.mp hmem with h | h
  · exact argsort_take_le_drop ws h hj
  · exact absurd h hni

lemma topIndices_length (ws : List ℚ) : (topIndices ws).length = min 4 ws.length := by
  unfold topIndices
  rw [List.length_drop, (argsort_perm ws).length_eq, List.length_range]
  omega

/-- C3 (counterexample): on the spec's own scenario
`[0.05, 0.05, 0.05, 0.05, 0.7, 0.1]` the selected weights are NOT emitted
in descending order `(0.7, 0.1, 0.05, 0.05)` — `argsort` ascending keeps
them ascending. -/
theorem skinning_example_not_descending :
    topWeights [1/20, 1/20, 1/20, 1/20, 7/10, 1/10] ≠ [7/10, 1/10, 1/20, 1/20] := by
  norm_num [topWeights, topIndices, argsortAsc, List.insertionSort,
    List.orderedInsert, List.range_succ]

/-- C3 (amended): the reducer selects the 4 highest weights and their bone
indices — every non-selected weight is ≤ every selected one — but the
selection is ordered by value ascending; on the spec scenario
`[0.05, 0.05, 0.05, 0.05, 0.7, 0.1]` over 6 bones the selected indices are
`[2, 3, 5, 4]` and the selected weights `[0.05, 0.05, 0.1, 0.7]`. -/
theorem skinning_top4_selection (ws : List ℚ) :
    List.Sorted (· ≤ ·) (topWeights ws) ∧
    (∀ i < ws.length, i ∉ topIndices ws →
      ∀ j ∈ topIndices ws, ws.getD i 0 ≤ ws.getD j 0) ∧
    (topIndices ws).length = min 4 ws.length ∧
    topIndices [1/20, 1/20, 1/20, 1/20, 7/10, 1/10] = [2, 3, 5, 4] ∧
    topWeights [1/20, 1/20, 1/20, 1/20, 7/10, 1/10] = [1/20, 1/20, 1/10, 7/10] := by
  refine ⟨topWeights_sorted ws, ?_, topIndices_length ws, ?_, ?_⟩
  · intro i hi hni j hj
    exact not_selected_le ws hi hni hj
  · norm_num [topIndices, argsortAsc, List.insertionSort,
      List.orderedInsert, List.range_succ]
  · norm_num [topWeights, topIndices, argsortAsc, List.insertionSort,
      List.orderedInsert, List.range_succ]

/-- Witness for C3's amended theorem: bone 0 (non-selected, weight 0.05) has
weight ≤ bone 4 (selected, weight 0.7) in the spec scenario. -/
theorem skinning_top4_selection_witness :
    ([1/20, 1/20, 1/20, 1/20, 7/10, 1/10] : List ℚ).getD 0 0 ≤
      ([1/20, 1/20, 1/20, 1/20, 7/10, 1/10] : List ℚ).getD 4 0 :=
  (skinning_top4_selection [1/20, 1/20, 1/20, 1/20, 7/10, 1/10]).2.1 0 (by norm_num)
    (by norm_num [topIndices, argsortAsc, List.insertionSort,
      List.orderedInsert, List.range_succ])
    4
    (by norm_num [topIndices, argsortAsc, List.insertionSort,
      List.orderedInsert, List.range_succ])

lemma sum_map_div (l : List ℚ) (c : ℚ) :
    (l.map (fun x => x / c)).sum = l.sum / c := by
  induction l with
  | nil => simp
  | cons a t ih => simp [ih, add_div]

/-- C6 (counterexample): with weights `[1e-7, 0, 0, 0, 0, 0]` there is a
non-zero input weight, yet the renormalized reduced weights sum to
`10/11 ≈ 0.909`, not within `1e-5` of 1 — the `1e-8` guard dominates tiny
weight sums. -/
theorem reduced_weights_sum_counterexample :
    (∃ w ∈ ([1/10000000, 0, 0, 0, 0, 0] : List ℚ), w ≠ 0) ∧
    ¬ |(reducedWeights [1/10000000, 0, 0, 0, 0, 0]).sum - 1| ≤ 1/100000 := by
  constructor
  · exact ⟨1/10000000, by norm_num, by norm_num⟩
  · have hval : (reducedWeights [1/10000000, 0, 0, 0, 0, 0]).sum = 10/11 := by
      norm_num [reducedWeights, topWeightSum, topWeights, topIndices, argsortAsc,
        List.insertionSort, List.orderedInsert, List.range_succ]
    rw [hval]
    rw [abs_sub_comm, abs_of_nonneg (by norm_num)]
    norm_num

/-- C6 (amended): whenever the selected top-4 weights sum to at least
`1e-3` (in particular for weight rows normalized to sum 1), the
renormalized reduced weights sum to 1 within `1e-5`. -/
theorem reduced_weights_sum_near_one (ws : List ℚ)
    (h : 1/1000 ≤ topWeightSum ws) :
    |(reducedWeights ws).sum - 1| ≤ 1/100000 := by
  have hc : 0 < topWeightSum ws + 1 / 100000000 := by
    have : (0:ℚ) < 1/1000 := by norm_num
    linarith
  have hsum : (reducedWeights ws).sum =
      topWeightSum ws / (topWeightSum ws + 1 / 100000000) := by
    unfold reducedWeights
    exact sum_map_div _ _
  rw [hsum, abs_sub_comm, abs_of_nonneg]
  · have hrw : 1 - topWeightSum ws / (topWeightSum ws + 1 / 100000000) =
        (1 / 100000000) / (topWeightSum ws + 1 / 100000000) := by
      field_simp
    rw [hrw, div_le_iff₀ hc]
    linarith
  · have hle : topWeightSum ws / (topWeightSum ws + 1 / 100000000) ≤ 1 := by
      rw [div_le_one hc]
      linarith
    linarith

/-- Witness for C6's amended theorem at the spec scenario weights. -/
theorem reduced_weights_sum_near_one_witness :
    |(reducedWeights [1/20, 1/20, 1/20, 1/20, 7/10, 1/10]).sum - 1| ≤ 1/100000 :=
  reduced_weights_sum_near_one [1/20, 1/20, 1/20, 1/20, 7/10, 1/10]
    (by norm_num [topWeightSum, topWeights, topIndices, argsortAsc,
      List.insertionSort, List.orderedInsert, List.range_succ])

/-! ### Opacity filter (lines 142–152)

`opacity_mask = opacities >= OPACITY_THRESHOLD` (0.1), then the same
boolean mask indexes `means`, `covs`, `colors`, `opacities`, `weights`. -/

/-- The per-asset splat arrays that the opacity filter acts on. -/
structure SplatData where
  means : List Vec3
  covs : List Mat3
  colors : List (List ℚ)
  opacities : List ℚ
  weights : List (List ℚ)

/-- `opacities >= OPACITY_THRESHOLD` with `OPACITY_THRESHOLD = 0.1`. -/
def opacityMask (opacities : List ℚ) : List Bool :=
  opacities.map (fun o => decide (1/10 ≤ o))

/-- NumPy boolean-mask indexing `x[mask]`: keep the entries whose mask
position is `True`, in order. -/
def maskFilter (mask : List Bool) (xs : List α) : List α :=
  ((mask.zip xs).filter (fun p => p.1)).map (fun p => p.2)

/-- Lines 148–152: apply the one opacity mask to all five arrays. -/
def filterByOpacity (d : SplatData) : SplatData :=
  let mask := opacityMask d.opacities
  ⟨maskFilter mask d.means, maskFilter mask d.covs, maskFilter mask d.colors,
    maskFilter mask d.opacities, maskFilter mask d.weights⟩

lemma maskFilter_sublist (mask : List Bool) (xs : List α) :
    List.Sublist (maskFilter mask xs) xs := by
  induction mask generalizing xs with
  | nil => simp [maskFilter]
  | cons b m ih =>
    cases xs with
    | nil => simp [maskFilter]
    | cons x t =>
      cases b with
      | true => simpa [maskFilter] using List.Sublist.cons₂ x (ih t)
      | false => simpa [maskFilter] using List.Sublist.cons x (ih t)

lemma maskFilter_map_pred (p : α → Bool) (xs : List α) :
    maskFilter (xs.map p) xs = xs.filter p := by
  induction xs with
  | nil => rfl
  | cons x t ih =>
    by_cases h : p x
    · simp [maskFilter, List.filter_cons, h] at ih ⊢
      exact ih
    · simp [maskFilter, List.filter_cons, h] at ih ⊢
      exact ih

lemma maskFilter_length (mask : List Bool) (xs : List α)
    (h : mask.length = xs.length) :
    (maskFilter mask xs).length = mask.countP id := by
  induction mask generalizing xs with
  | nil => simp [maskFilter]
  | cons b m ih =>
    cases xs with
    | nil => simp at h
    | cons x t =>
      have ht : m.length = t.length := by simpa using h
      cases b with
      | true => simp [maskFilter, List.countP_cons] at ih ⊢; rw [ih t ht]
      | false => simp [maskFilter, List.countP_cons] at ih ⊢; rw [ih t ht]

lemma maskFilter_opacity_length {β : Type} (ops : List ℚ) (xs : List β)
    (h : xs.length = ops.length) :
    (maskFilter (opacityMask ops) xs).length =
      (ops.filter (fun o => decide (1/10 ≤ o))).length := by
  rw [maskFilter_length _ _ (by simpa [opacityMask] using h.symm)]
  rw [opacityMask, List.countP_map, ← List.countP_eq_length_filter]
  rfl

/-- C7: the opacity filter keeps exactly the records with opacity ≥ 0.1:
the retained opacities are `filter (0.1 ≤ ·)` of the input (hence their
count is `count(opacity ≥ 0.1)` and each one is ≥ 0.1), the same retention
mask is applied to positions, covariances, colors, opacities and skin
weights (so, for equal-length inputs, all five outputs have the retained
count as length), and every output is a sublist of its input — retained
records keep their original relative order. -/
theorem opacity_filter_spec (d : SplatData)
    (hm : d.means.length = d.opacities.length)
    (hc : d.covs.length = d.opacities.length)
    (hcol : d.colors.length = d.opacities.length)
    (hw : d.weights.length = d.opacities.length) :
    (filterByOpacity d).opacities = d.opacities.filter (fun o => decide (1/10 ≤ o)) ∧
    (filterByOpacity d).opacities.length =
      d.opacities.countP (fun o => decide (1/10 ≤ o)) ∧
    (∀ o ∈ (filterByOpacity d).opacities, 1/10 ≤ o) ∧
    List.Sublist (filterByOpacity d).means d.means ∧
    List.Sublist (filterByOpacity d).covs d.covs ∧
    List.Sublist (filterByOpacity d).colors d.colors ∧
    List.Sublist (filterByOpacity d).opacities d.opacities ∧
    List.Sublist (filterByOpacity d).weights d.weights ∧
    (filterByOpacity d).means.length = (filterByOpacity d).opacities.length ∧
    (filterByOpacity d).covs.length = (filterByOpacity d).opacities.length ∧
    (filterByOpacity d).colors.length = (filterByOpacity d).opacities.length ∧
    (filterByOpacity d).weights.length = (filterByOpacity d).opacities.length := by
  have hops : (filterByOpacity d).opacities =
      d.opacities.filter (fun o => decide (1/10 ≤ o)) := by
    simpa [filterByOpacity, opacityMask] using
      maskFilter_map_pred (fun o => decide ((1:ℚ)/10 ≤ o)) d.opacities
  have hcount : (filterByOpacity d).opacities.length =
      d.opacities.countP (fun o => decide (1/10 ≤ o)) := by
    rw [hops, ← List.countP_eq_length_filter]
  refine ⟨hops, hcount, ?_, maskFilter_sublist _ _, maskFilter_sublist _ _,
    maskFilter_sublist _ _, maskFilter_sublist _ _, maskFilter_sublist _ _,
    ?_, ?_, ?_, ?_⟩
  · intro o ho
    rw [hops] at ho
    simpa using (List.mem_filter.mp ho).2
  · rw [show (filterByOpacity d).means = maskFilter (opacityMask d.opacities) d.means from rfl,
      maskFilter_opacity_length d.opacities d.means hm, hops]
  · rw [show (filterByOpacity d).covs = maskFilter (opacityMask d.opacities) d.covs from rfl,
      maskFilter_opacity_length d.opacities d.covs hc, hops]
  · rw [show (filterByOpacity d).colors = maskFilter (opacityMask d.opacities) d.colors from rfl,
      maskFilter_opacity_length d.opacities d.colors hcol, hops]
  · rw [show (filterByOpacity d).weights = maskFilter (opacityMask d.opacities) d.weights from rfl,
      maskFilter_opacity_length d.opacities d.weights hw, hops]

/-- Witness for C7 on the spec's scenario opacities `[0.05, 0.5, 0.9]`:
exactly two records are retained. -/
theorem opacity_filter_spec_witness :
    (filterByOpacity ⟨[(0,0,0), (1,0,0), (2,0,0)], [1, 1, 1],
      [[1], [1], [1]], [1/20, 1/2, 9/10], [[1], [1], [1]]⟩).opacities =
      [1/2, 9/10] := by
  have h := opacity_filter_spec ⟨[(0,0,0), (1,0,0), (2,0,0)], [1, 1, 1],
    [[1], [1], [1]], [1/20, 1/2, 9/10], [[1], [1], [1]]⟩ rfl rfl rfl rfl
  rw [h.1]
  norm_num [List.filter]

/-! ### Color emission (lines 234–242)

`if colors.max() <= 1.0: colors = (colors * 255).astype(np.uint8)` —
the range decision is one global test on the whole batch; then
`colors.astype(np.uint8)` in the other branch, and a constant alpha
column `np.full((N, 1), 255)` appended when `colors.shape[1] == 3`. -/

/-- C-style float→integer conversion: truncation toward zero. -/
def truncQ (q : ℚ) : ℤ :=
  if 0 ≤ q then ⌊q⌋ else ⌈q⌉

/-- `astype(np.uint8)` of one value: truncate toward zero, wrap mod 256. -/
def toUint8 (q : ℚ) : ℕ :=
  (truncQ q % 256).toNat

/-- Lines 234–242: quantize the whole color batch (the `max() <= 1.0`
branch is chosen once, globally), then append the alpha column when the
channel count (the row width) is 3. -/
def emitColors (cs : List (List ℚ)) : List (List ℕ) :=
  let quantized :=
    if cs.flatten.maximum ≤ (1 : WithBot ℚ) then
      cs.map (fun row => row.map (fun c => toUint8 (c * 255)))
    else
      cs.map (fun row => row.map toUint8)
  if (cs.headD []).length = 3 then
    quantized.map (fun row => row ++ [255])
  else
    quantized

lemma toUint8_scale (c : ℚ) (h0 : 0 ≤ c) (h1 : c ≤ 1) :
    toUint8 (c * 255) = (⌊c * 255⌋).toNat ∧ (⌊c * 255⌋).toNat ≤ 255 := by
  have hnn : 0 ≤ c * 255 := by positivity
  have hfl0 : 0 ≤ ⌊c * 255⌋ := Int.floor_nonneg.mpr hnn
  have hle : c * 255 ≤ 255 := by nlinarith
  have hfl : ⌊c * 255⌋ ≤ 255 := by
    have h255 : (⌊(255:ℚ)⌋ : ℤ) = 255 := by norm_num
    calc ⌊c * 255⌋ ≤ ⌊(255:ℚ)⌋ := Int.floor_le_floor hle
    _ = 255 := h255
  constructor
  · unfold toUint8 truncQ
    rw [if_pos hnn, Int.emod_eq_of_lt hfl0 (by omega)]
  · omega

/-- C4 (counterexample): the emitted channel is the truncation of
`channel * 255`, not its rounding — for the single RGB color
`(0.003, 0, 0)` (global max ≤ 1) the code emits channel value 0, while
rounding `0.003 * 255 = 0.765` to 8-bit would give 1. -/
theorem emit_colors_not_rounded :
    emitColors [[3/1000, 0, 0]] = [[0, 0, 0, 255]] ∧
    (round ((3/1000 : ℚ) * 255)).toNat = 1 := by
  constructor
  · have hmax : ([[3/1000, 0, 0]] : List (List ℚ)).flatten.maximum ≤ (1 : WithBot ℚ) := by
      apply List.maximum_le_of_forall_le
      intro a ha
      simp only [List.flatten, List.append_nil, List.mem_cons, List.not_mem_nil,
        or_false] at ha
      rcases ha with rfl | rfl | rfl <;> exact WithBot.coe_le_coe.mpr (by norm_num)
    simp only [emitColors]
    rw [if_pos hmax, if_pos (by norm_num)]
    norm_num [toUint8, truncQ]
  · norm_num [round_eq]

/-- C4 (amended): for a color batch with all channels in `[0, 1]` and
3 channels per record, every emitted channel is `channel * 255` truncated
(floored) to 8-bit unsigned — the range decision being one global test —
with a constant 255 alpha appended, so the output is an N×4 array of
values ≤ 255. -/
theorem emit_colors_low_range (cs : List (List ℚ))
    (hrange : ∀ row ∈ cs, ∀ c ∈ row, 0 ≤ c ∧ c ≤ 1)
    (hshape : ∀ row ∈ cs, row.length = 3) :
    emitColors cs =
      cs.map (fun row => row.map (fun c => (⌊c * 255⌋).toNat) ++ [255]) ∧
    (∀ row ∈ emitColors cs, row.length = 4) ∧
    (∀ row ∈ emitColors cs, ∀ x ∈ row, x ≤ 255) := by
  have hcond : cs.flatten.maximum ≤ (1 : WithBot ℚ) := by
    apply List.maximum_le_of_forall_le
    intro a ha
    rcases List.mem_flatten.mp ha with ⟨row, hrow, hmem⟩
    exact WithBot.coe_le_coe.mpr (hrange row hrow a hmem).2
  have hmain : emitColors cs =
      cs.map (fun row => row.map (fun c => (⌊c * 255⌋).toNat) ++ [255]) := by
    cases cs with
    | nil => rfl
    | cons r t =>
      simp only [emitColors]
      rw [if_pos hcond, if_pos (by simpa using hshape r (by simp))]
      rw [List.map_map]
      apply List.map_congr_left
      intro row hrow
      simp only [Function.comp_apply]
      congr 1
      apply List.map_congr_left
      intro c hc
      exact (toUint8_scale c (hrange row hrow c hc).1 (hrange row hrow c hc).2).1
  refine ⟨hmain, ?_, ?_⟩
  · intro row hrow
    rw [hmain] at hrow
    rcases List.mem_map.mp hrow with ⟨r0, hr0, rfl⟩
    simp [hshape r0 hr0]
  · intro row hrow x hx
    rw [hmain] at hrow
    rcases List.mem_map.mp hrow with ⟨r0, hr0, rfl⟩
    rcases List.mem_append.mp hx with h | h
    · rcases List.mem_map.mp h with ⟨c, hc, rfl⟩
      exact (toUint8_scale c (hrange r0 hr0 c hc).1 (hrange r0 hr0 c hc).2).2
    · simp at h
      omega

/-- Witness for C4's amended theorem: one RGB record `(0.5, 0.25, 1)`
emits `(127, 63, 255)` plus the constant alpha. -/
theorem emit_colors_low_range_witness :
    emitColors [[1/2, 1/4, 1]] = [[127, 63, 255, 255]] := by
  have h := emit_colors_low_range [[1/2, 1/4, 1]]
    (by intro row hrow c hc; simp at hrow; subst hrow; simp at hc
        rcases hc with h | h | h <;> subst h <;> norm_num)
    (by intro row hrow; simp at hrow; subst hrow; rfl)
  rw [h.1]
  norm_num
  omega

/-! ### `decompose_covariance` (lines 10–20)

The whole `try` body — `np.linalg.eigh`, the sqrt-clamped scales and
`Rotation.from_matrix(...).as_quat()` — is one fallible computation on the
input matrix (`Except.error` = a raised exception); `except Exception`
prints and returns `(np.array([0.01, 0.01, 0.01]), np.array([0, 0, 0, 1]))`. -/

/-- `decompose_covariance`, given the outcome of its `try` body. -/
def decompose_covariance (body : Except String (Vec3 × Quat4)) : Vec3 × Quat4 :=
  match body with
  | Except.ok r => r
  | Except.error _ => ((1/100, 1/100, 1/100), (0, 0, 0, 1))

/-- C5 (counterexample): on a failing record the fallback scale vector is
`(0.01, 0.01, 0.01)`, which is not the unit scale vector `(1, 1, 1)`. -/
theorem decompose_covariance_default_not_unit :
    decompose_covariance (Except.error "non-finite input") =
      ((1/100, 1/100, 1/100), (0, 0, 0, 1)) ∧
    ((1/100, 1/100, 1/100) : Vec3) ≠ ((1, 1, 1) : Vec3) := by
  refine ⟨rfl, ?_⟩
  intro h
  rw [Prod.ext_iff] at h
  exact absurd h.1 (by norm_num)

/-- C5 (amended): if the decomposition raises for a record,
`decompose_covariance` returns the default scale vector `(0.01, 0.01, 0.01)`
(uniform, but not unit) and the identity quaternion `(0, 0, 0, 1)` for that
single record, and a batch maps through it completely — the exception is
never propagated. -/
theorem decompose_covariance_fallback (e : String)
    (bodies : List (Except String (Vec3 × Quat4))) :
    decompose_covariance (Except.error e) =
      ((1/100, 1/100, 1/100), (0, 0, 0, 1)) ∧
    (bodies.map decompose_covariance).length = bodies.length := by
  exact ⟨rfl, by simp⟩

/-! ### `process_data` entry (lines 66–83): the `input_dir` lookup

Inside `process_data`, the statement `input_dir = os.path.dirname(input_path)`
(line 79) is indented into the nested helper `to_np`, after `to_np`'s
`return`; so `input_dir` is a (never-assigned) local of `to_np`, not of
`process_data`.  The unconditional line 83,
`std_male_candidate = os.path.join(input_dir, 'std_male.model.pt')`,
therefore looks up a name bound neither in `process_data`'s frame nor
globally.  We model the frame environment explicitly. -/

/-- The names bound in `process_data`'s own frame when line 83 runs:
the two parameters, `data` (line 70), `to_np` (line 74) and
`std_male_model_path` (line 82).  `input_dir` is absent. -/
def processDataFrameNames : List String :=
  ["input_path", "output_dir", "data", "to_np", "std_male_model_path"]

/-- Python name resolution against a frame: a miss raises `NameError`. -/
def lookupLocal (env : List String) (n : String) : Except String Unit :=
  if n ∈ env then Except.ok ()
  else Except.error ("NameError: name '" ++ n ++ "' is not defined")

/-- `process_data`, to the granularity C10 needs: deserialize the input
(`load`), then evaluate line 83's `input_dir` lookup; only afterwards would
the opacity filtering (lines 142–152) and the binary writes run, producing
the output files. -/
def process_data (load : Except String Unit) : Except String (List String) :=
  load.bind (fun _ =>
    (lookupLocal processDataFrameNames "input_dir").bind (fun _ =>
      Except.ok ["splats.bin", "weights.bin", "pkl_header.json"]))

/-- C10: for every successfully deserialized input, `process_data` raises
`NameError` on the unbound `input_dir` before filtering any records or
writing any output file — the splat pipeline never completes. -/
theorem process_data_always_nameerror (load : Except String Unit)
    (h : load = Except.ok ()) :
    process_data load =
      Except.error "NameError: name 'input_dir' is not defined" ∧
    ∀ outs : List String, process_data load ≠ Except.ok outs := by
  subst h
  have hmain : process_data (Except.ok ()) =
      Except.error "NameError: name 'input_dir' is not defined" := by
    show (lookupLocal processDataFrameNames "input_dir").bind
      (fun _ => Except.ok ["splats.bin", "weights.bin", "pkl_header.json"]) =
      Except.error "NameError: name 'input_dir' is not defined"
    rw [lookupLocal, if_neg (by decide)]
    rfl
  refine ⟨hmain, ?_⟩
  intro outs h
  rw [hmain] at h
  exact Except.noConfusion h

/-- Witness for C10 at a trivially loadable input. -/
theorem process_data_always_nameerror_witness :
    process_data (Except.ok ()) =
      Except.error "NameError: name 'input_dir' is not defined" :=
  (process_data_always_nameerror (Except.ok ()) rfl).1

/-! ### `main` (lines 479–515): multi-asset run

`main` converts three assets in sequence.  The `gs_example` input's
existence is tested in `main` itself; `convert_441_skeleton` and
`convert_std_male_model` test their input's existence first thing and
return (a printed warning) when missing.  No call is wrapped in
`try`/`except`, so an exception raised while converting one asset
propagates out of `main`.  `Except.error` models such an exception. -/

/-- `main`: run the three conversions in order, skipping an asset whose
input file is missing; the result lists the assets actually converted. -/
def runMain (gsExists skExists stdExists : Bool)
    (gsRun skRun stdRun : Except String Unit) : Except String (List String) := do
  let gsDone ← if gsExists then gsRun.map (fun _ => ["gs_example"]) else pure []
  let skDone ← if skExists then skRun.map (fun _ => gsDone ++ ["441_skeleton"])
    else pure gsDone
  let stdDone ← if stdExists then stdRun.map (fun _ => skDone ++ ["std_male"])
    else pure skDone
  pure stdDone

/-- C9 (counterexample): all three inputs present, the splat-cloud
conversion raises, the other two would succeed — yet the run aborts with
the exception and no other asset is converted: asset failures are NOT
isolated. -/
theorem main_not_isolated_counterexample :
    runMain true true true (Except.error "NameError: name 'input_dir' is not defined")
      (Except.ok ()) (Except.ok ()) =
      Except.error "NameError: name 'input_dir' is not defined" ∧
    ∀ converted : List String,
      runMain true true true
        (Except.error "NameError: name 'input_dir' is not defined")
        (Except.ok ()) (Except.ok ()) ≠ Except.ok converted := by
  have habort : runMain true true true
      (Except.error "NameError: name 'input_dir' is not defined")
      (Except.ok ()) (Except.ok ()) =
      Except.error "NameError: name 'input_dir' is not defined" := rfl
  refine ⟨habort, ?_⟩
  intro converted h
  rw [habort] at h
  exact Except.noConfusion h

/-- C9 (amended): a missing companion input file only causes that asset to
be skipped (the others still convert), but an exception raised while
converting one asset propagates and aborts every subsequent asset's
conversion; when nothing raises, all present assets convert. -/
theorem main_asset_isolation (e : String) (sk std : Except String Unit) :
    runMain false true true (Except.error e) (Except.ok ()) (Except.ok ()) =
      Except.ok ["441_skeleton", "std_male"] ∧
    runMain true false true (Except.ok ()) sk (Except.ok ()) =
      Except.ok ["gs_example", "std_male"] ∧
    runMain true true true (Except.error e) sk std = Except.error e ∧
    runMain true true true (Except.ok ()) (Except.error e) std = Except.error e ∧
    runMain true true true (Except.ok ()) (Except.ok ()) (Except.ok ()) =
      Except.ok ["gs_example", "441_skeleton", "std_male"] :=
  ⟨rfl, rfl, rfl, rfl, rfl⟩

/-! ### Animation packing (lines 183–205)

After the coordinate conversion (lines 184–185), the `(F, B, 4)` rotation
and `(F, B, 3)` translation arrays are flattened to `F·B` pairs; for each
pair a 4×4 matrix is built from `np.eye(4)` by writing the quaternion's
rotation matrix into `[:3, :3]` and the translation into `[:3, 3]`
(lines 192–196), each matrix is transposed (line 203, row-major
construction → column-major emission) and the result is reshaped to
`(F, B, 16)` (line 205). -/

/-- Squared norm of a quaternion `(x, y, z, w)`. -/
def quatNormSq (q : Quat4) : ℚ :=
  q.1^2 + q.2.1^2 + q.2.2.1^2 + q.2.2.2^2

/-- scipy `Rotation.from_quat(q).as_matrix()`, over `ℚ`: scipy normalizes
the quaternion first, so each entry of the unit-quaternion rotation matrix
is scaled by `1 / (x² + y² + z² + w²)`. -/
def quatToMat (q : Quat4) : Mat3 :=
  let x := q.1
  let y := q.2.1
  let z := q.2.2.1
  let w := q.2.2.2
  let n := quatNormSq q
  !![(x^2 - y^2 - z^2 + w^2) / n, 2*(x*y - z*w) / n, 2*(x*z + y*w) / n;
     2*(x*y + z*w) / n, (-x^2 + y^2 - z^2 + w^2) / n, 2*(y*z - x*w) / n;
     2*(x*z - y*w) / n, 2*(y*z + x*w) / n, (-x^2 - y^2 + z^2 + w^2) / n]

/-- A `Vec3` as an indexed vector. -/
def vecToFun (p : Vec3) : Fin 3 → ℚ :=
  ![p.1, p.2.1, p.2.2]

/-- Lines 194–196: `np.eye(4)` with `[:3, :3] = R` and `[:3, 3] = t`
written over it; the bottom row keeps the identity's `(0, 0, 0, 1)`. -/
def homogeneous (R : Mat3) (t : Fin 3 → ℚ) : Matrix (Fin 4) (Fin 4) ℚ :=
  Matrix.of fun i j =>
    if hi : (i : ℕ) < 3 then
      if hj : (j : ℕ) < 3 then R ⟨i, hi⟩ ⟨j, hj⟩ else t ⟨i, hi⟩
    else
      (1 : Matrix (Fin 4) (Fin 4) ℚ) i j

/-- `reshape(-1)` of one 4×4 matrix: row-major flattening to 16 values. -/
def flatten16 (M : Matrix (Fin 4) (Fin 4) ℚ) : List ℚ :=
  (List.finRange 4).flatMap (fun r => (List.finRange 4).map (fun c => M r c))

/-- One (quaternion, translation) pair of the flattened `(F·B)` batch:
build the homogeneous matrix, transpose it (line 203), flatten. -/
def packBone (q : Quat4) (t : Vec3) : List ℚ :=
  flatten16 (homogeneous (quatToMat q) (vecToFun t)).transpose

/-- Lines 188–205 end to end: the flatten over `(F, B)`, per-pair packing
and reshape back to `(F, B, 16)` — frame stays the outer axis, bone the
inner one. -/
def packAnimation (rotations : List (List Quat4))
    (translations : List (List Vec3)) : List (List (List ℚ)) :=
  (rotations.zip translations).map
    (fun p => (p.1.zip p.2).map (fun qt => packBone qt.1 qt.2))

lemma packBone_length (q : Quat4) (t : Vec3) : (packBone q t).length = 16 := rfl

lemma packFrame_getD (r : List Quat4) (tl : List Vec3) (b : ℕ)
    (q0 : Quat4) (t0 : Vec3) (hb : b < r.length) (hbT : b < tl.length) :
    ((r.zip tl).map (fun qt => packBone qt.1 qt.2)).getD b [] =
      packBone (r.getD b q0) (tl.getD b t0) := by
  induction r generalizing tl b with
  | nil => simp at hb
  | cons qh rt ih =>
    cases tl with
    | nil => simp at hbT
    | cons th tt =>
      cases b with
      | zero => rfl
      | succ b' =>
        have h1 : b' < rt.length := by simpa using hb
        have h2 : b' < tt.length := by simpa using hbT
        simpa using ih tt b' h1 h2

lemma packAnimation_getD (R : List (List Quat4)) (T : List (List Vec3))
    (f : ℕ) (hf : f < R.length) (hfT : f < T.length) :
    (packAnimation R T).getD f [] =
      ((R.getD f []).zip (T.getD f [])).map (fun qt => packBone qt.1 qt.2) := by
  induction R generalizing T f with
  | nil => simp at hf
  | cons r R' ih =>
    cases T with
    | nil => simp at hfT
    | cons t T' =>
      cases f with
      | zero => rfl
      | succ f' =>
        have h1 : f' < R'.length := by simpa using hf
        have h2 : f' < T'.length := by simpa using hfT
        simpa [packAnimation] using ih T' f' h1 h2

/-- C8: the packed animation is an `F × Bn × 16` array — frame outer axis,
bone inner axis, each entry the 16-value pack of the corresponding
(quaternion, translation) pair — and each 16-value pack is the
column-major flattening of the homogeneous transform: entries 12, 13, 14
hold the translation, entries 3, 7, 11 are 0, entry 15 is 1, and entry
`4·c + r` (for `r, c < 3`) holds entry `(r, c)` of the quaternion's
rotation matrix. -/
theorem animation_packing (q : Quat4) (t : Vec3)
    (rotations : List (List Quat4)) (translations : List (List Vec3))
    (hF : rotations.length = translations.length) :
    (packBone q t).length = 16 ∧
    (packBone q t).getD 12 0 = t.1 ∧
    (packBone q t).getD 13 0 = t.2.1 ∧
    (packBone q t).getD 14 0 = t.2.2 ∧
    (packBone q t).getD 3 0 = 0 ∧
    (packBone q t).getD 7 0 = 0 ∧
    (packBone q t).getD 11 0 = 0 ∧
    (packBone q t).getD 15 0 = 1 ∧
    (∀ r c : Fin 3,
      (packBone q t).getD (4 * (c : ℕ) + (r : ℕ)) 0 = quatToMat q r c) ∧
    (packAnimation rotations translations).length = rotations.length ∧
    (∀ frame ∈ packAnimation rotations translations,
      ∀ m ∈ frame, m.length = 16) ∧
    (∀ f b : ℕ, ∀ q0 : Quat4, ∀ t0 : Vec3,
      f < rotations.length →
      b < (rotations.getD f []).length →
      b < (translations.getD f []).length →
      ((packAnimation rotations translations).getD f []).getD b [] =
        packBone ((rotations.getD f []).getD b q0)
          ((translations.getD f []).getD b t0)) := by
  refine ⟨rfl, rfl, rfl, rfl, rfl, rfl, rfl, rfl, ?_, ?_, ?_, ?_⟩
  · intro r c
    fin_cases r <;> fin_cases c <;> rfl
  · simp [packAnimation, hF]
  · intro frame hframe m hm
    rcases List.mem_map.mp hframe with ⟨p, _, rfl⟩
    rcases List.mem_map.mp hm with ⟨qt, _, rfl⟩
    exact packBone_length qt.1 qt.2
  · intro f b q0 t0 hf hb hbT
    have hfT : f < translations.length := hF ▸ hf
    rw [packAnimation_getD rotations translations f hf hfT]
    exact packFrame_getD _ _ b q0 t0 hb hbT

/-- Witness for C8 at a one-frame, one-bone animation: the identity
quaternion with translation `(1, 2, 3)`. -/
theorem animation_packing_witness :
    ((packAnimation [[(0, 0, 0, 1)]] [[(1, 2, 3)]]).getD 0 []).getD 0 [] =
      packBone ((0 : ℚ), 0, 0, 1) ((1 : ℚ), 2, 3) := by
  have h := animation_packing ((0 : ℚ), 0, 0, 1) ((1 : ℚ), 2, 3)
    [[(0, 0, 0, 1)]] [[(1, 2, 3)]] rfl
  exact h.2.2.2.2.2.2.2.2.2.2.2 0 0 (0, 0, 0, 0) (0, 0, 0)
    (by norm_num) (by simp) (by simp)

end VSupersplat
